import Mathlib

/-!
Verification of the AS1130 LED-driver register-mapping layer (LRAS1130.cpp).

The driver is a stateless mapping from typed operations to byte-level bus
transactions.  We embed the byte/bit computations as functions on `Nat`
(with explicit `% 256` / `% 65536` where the C code truncates to `uint8_t`
or `uint16_t`), chip register state as a function `Nat → Nat` from register
index to last written byte, and the I2C transaction stream as a list of
events.  Register-map constants that live in the header (`CR_*`, `RS_*`,
`SOSF_*`, `MMF_*` values) are parameters of the definitions: no claim below
depends on their concrete values, only on the structure of the accesses.
-/

namespace AS1130

/-- Complement of a byte as the C expression `x & ~mask` computes it on
`uint8_t` operands: bitwise XOR with `0xff` after truncation to 8 bits. -/
def byteNot (mask : Nat) : Nat := 0xff ^^^ (mask % 256)

/-- `AS1130::writeControlRegisterBits`, the pure byte computation: read value
`registerData`, clear the mask bits, OR in the new data restricted to the
mask.  Inputs are truncated to 8 bits as the `uint8_t` parameters are. -/
def writeControlRegisterBitsByte (registerData mask data : Nat) : Nat :=
  ((registerData % 256) &&& byteNot mask) ||| ((data % 256) &&& (mask % 256))

/-- `AS1130::writeControlRegisterBits` as a transformer of the chip's control
register file (reads return the last written byte). -/
def writeControlRegisterBitsState (controlRegister mask data : Nat)
    (regs : Nat → Nat) : Nat → Nat :=
  fun r =>
    if r = controlRegister then
      writeControlRegisterBitsByte (regs controlRegister) mask data
    else regs r

/-- `AS1130::setControlRegisterBits`: masked write with `data := mask`. -/
def setControlRegisterBitsState (controlRegister mask : Nat)
    (regs : Nat → Nat) : Nat → Nat :=
  writeControlRegisterBitsState controlRegister mask mask regs

/-- `AS1130::clearControlRegisterBits`: masked write with `data := 0`. -/
def clearControlRegisterBitsState (controlRegister mask : Nat)
    (regs : Nat → Nat) : Nat → Nat :=
  writeControlRegisterBitsState controlRegister mask 0 regs

/-- `AS1130::setOrClearControlRegisterBits`. -/
def setOrClearControlRegisterBitsState (controlRegister mask : Nat)
    (setBits : Bool) (regs : Nat → Nat) : Nat → Nat :=
  if setBits then writeControlRegisterBitsState controlRegister mask mask regs
  else writeControlRegisterBitsState controlRegister mask 0 regs

/-- `AS1130::stopChip`: clear the shutdown bit.  `controlRegister` stands for
`CR_ShutdownAndOpenShort` and `mask` for `SOSF_Shutdown` (header constants). -/
def stopChipState (controlRegister mask : Nat) (regs : Nat → Nat) : Nat → Nat :=
  clearControlRegisterBitsState controlRegister mask regs

/-- `AS1130::setBlinkEnabled`: set-or-clear of `MMF_BlinkEnabled` in
`CR_MovieMode` with the argument inverted (`!enabled`). -/
def setBlinkEnabledState (controlRegister mask : Nat) (enabled : Bool)
    (regs : Nat → Nat) : Nat → Nat :=
  setOrClearControlRegisterBitsState controlRegister mask (!enabled) regs

/-- `AS1130::setMovieFrameCount`: the data byte passed to the masked write is
`count - 1` in `uint8_t` arithmetic. -/
def setMovieFrameCountData (count : Nat) : Nat := ((count % 256) + 255) % 256

/-- `AS1130::setMovieFrameCount` as a register-state transformer;
`controlRegister` stands for `CR_MovieMode`, `mask` for
`MMF_MovieFramesMask`. -/
def setMovieFrameCountState (controlRegister mask count : Nat)
    (regs : Nat → Nat) : Nat → Nat :=
  writeControlRegisterBitsState controlRegister mask
    (setMovieFrameCountData count) regs

/- ### Bit-level helper lemmas -/

theorem testBit_one_shiftLeft (t b : Nat) :
    (1 <<< t).testBit b = decide (t = b) := by
  have h : (1 <<< t) = 2 ^ t := by
    rw [Nat.shiftLeft_eq, one_mul]
  rw [h, Nat.testBit_two_pow]

theorem testBit_byteNot (mask b : Nat) (hb : b < 8) :
    (byteNot mask).testBit b = !mask.testBit b := by
  unfold byteNot
  have h255 : (0xff : Nat) = 2 ^ 8 - 1 := by norm_num
  have h256 : (256 : Nat) = 2 ^ 8 := by norm_num
  rw [Nat.testBit_xor, h255, Nat.testBit_two_pow_sub_one, h256,
    Nat.testBit_mod_two_pow]
  simp [hb]

theorem testBit_mod256 (x b : Nat) (hb : b < 8) :
    (x % 256).testBit b = x.testBit b := by
  have h256 : (256 : Nat) = 2 ^ 8 := by norm_num
  rw [h256, Nat.testBit_mod_two_pow]
  simp [hb]

theorem testBit_mod256_high (x b : Nat) (hb : 8 ≤ b) :
    (x % 256).testBit b = false := by
  have h256 : (256 : Nat) = 2 ^ 8 := by norm_num
  rw [h256, Nat.testBit_mod_two_pow]
  simp [Nat.not_lt.mpr hb]

theorem writeControlRegisterBitsByte_testBit (old mask data b : Nat)
    (hb : b < 8) :
    (writeControlRegisterBitsByte old mask data).testBit b =
      if mask.testBit b then data.testBit b else old.testBit b := by
  unfold writeControlRegisterBitsByte
  rw [Nat.testBit_or, Nat.testBit_and, Nat.testBit_and,
    testBit_byteNot mask b hb, testBit_mod256 old b hb,
    testBit_mod256 data b hb, testBit_mod256 mask b hb]
  cases mask.testBit b <;> cases data.testBit b <;> cases old.testBit b <;> simp

theorem writeControlRegisterBitsByte_testBit_high (old mask data b : Nat)
    (hb : 8 ≤ b) :
    (writeControlRegisterBitsByte old mask data).testBit b = false := by
  unfold writeControlRegisterBitsByte byteNot
  rw [Nat.testBit_or, Nat.testBit_and, Nat.testBit_and,
    testBit_mod256_high old b hb, testBit_mod256_high mask b hb]
  simp

/-- Claim C1: `writeControlRegisterBits` performs a masked read-modify-write:
the register file changes only at the target register, and in the written
byte every bit inside the mask equals the corresponding bit of the new value
while every bit outside the mask equals the corresponding bit of the byte
that was read back. -/
theorem writeControlRegisterBits_masked_rmw (regs : Nat → Nat)
    (controlRegister mask data r b : Nat) (hb : b < 8) :
    writeControlRegisterBitsState controlRegister mask data regs r =
      (if r = controlRegister then
        writeControlRegisterBitsByte (regs controlRegister) mask data
      else regs r) ∧
    (writeControlRegisterBitsByte (regs controlRegister) mask data).testBit b =
      (if mask.testBit b then data.testBit b
       else (regs controlRegister).testBit b) := by
  exact ⟨rfl, writeControlRegisterBitsByte_testBit _ _ _ _ hb⟩

/-- Witness for C1 at a concrete register file, mask and bit. -/
theorem writeControlRegisterBits_masked_rmw_witness :
    writeControlRegisterBitsState 3 0x0f 0x5a (fun _ => 0xa7) 3 =
      (if (3 : Nat) = 3 then
        writeControlRegisterBitsByte ((fun _ => 0xa7) 3) 0x0f 0x5a
      else 0xa7) ∧
    (writeControlRegisterBitsByte ((fun _ => (0xa7 : Nat)) 3) 0x0f 0x5a).testBit
        6 =
      (if (0x0f : Nat).testBit 6 then (0x5a : Nat).testBit 6
       else ((fun _ => (0xa7 : Nat)) 3).testBit 6) :=
  writeControlRegisterBits_masked_rmw (fun _ => 0xa7) 3 0x0f 0x5a 3 6
    (by decide)

/-- Claim C8: `stopChip` is idempotent on the register state (reads return
the last written byte): running it twice equals running it once at every
register, and after one run the shutdown-mask bits of the target register
are already all zero, so the second run reads a byte with the mask clear and
writes the same byte back. -/
theorem stopChip_idempotent (controlRegister mask r : Nat) (regs : Nat → Nat) :
    stopChipState controlRegister mask
        (stopChipState controlRegister mask regs) r =
      stopChipState controlRegister mask regs r ∧
    (stopChipState controlRegister mask regs controlRegister) &&& mask = 0 := by
  constructor
  · unfold stopChipState clearControlRegisterBitsState
      writeControlRegisterBitsState
    by_cases hr : r = controlRegister
    · simp only [hr, eq_self_iff_true, if_true]
      apply Nat.eq_of_testBit_eq
      intro b
      by_cases hb : b < 8
      · rw [writeControlRegisterBitsByte_testBit _ _ _ _ hb,
          writeControlRegisterBitsByte_testBit _ _ _ _ hb]
        cases h : mask.testBit b <;> simp [h]
      · rw [writeControlRegisterBitsByte_testBit_high _ _ _ _ (Nat.not_lt.mp hb),
          writeControlRegisterBitsByte_testBit_high _ _ _ _ (Nat.not_lt.mp hb)]
    · simp [hr]
  · unfold stopChipState clearControlRegisterBitsState
      writeControlRegisterBitsState
    simp only [eq_self_iff_true, if_true]
    apply Nat.eq_of_testBit_eq
    intro b
    rw [Nat.testBit_and]
    by_cases hb : b < 8
    · rw [writeControlRegisterBitsByte_testBit _ _ _ _ hb]
      cases h : mask.testBit b <;> simp [h]
    · rw [writeControlRegisterBitsByte_testBit_high _ _ _ _ (Nat.not_lt.mp hb)]
      simp

/-- Claim C9: `setBlinkEnabled` inverts its argument: it is exactly the
masked read-modify-write of the blink bit with new value `mask` when
`enabled` is false and `0` when `enabled` is true, so inside the mask the
written bits are `!enabled` and outside the mask the read-back bits are
preserved. -/
theorem setBlinkEnabled_inverts (controlRegister mask : Nat) (enabled : Bool)
    (regs : Nat → Nat) (b : Nat) (hb : b < 8) :
    setBlinkEnabledState controlRegister mask enabled regs =
      writeControlRegisterBitsState controlRegister mask
        (if enabled then 0 else mask) regs ∧
    (setBlinkEnabledState controlRegister mask enabled regs
        controlRegister).testBit b =
      (if mask.testBit b then !enabled
       else (regs controlRegister).testBit b) := by
  constructor
  · unfold setBlinkEnabledState setOrClearControlRegisterBitsState
    cases enabled <;> simp
  · unfold setBlinkEnabledState setOrClearControlRegisterBitsState
      writeControlRegisterBitsState
    cases enabled <;>
      simp only [Bool.not_true, Bool.not_false, if_pos rfl, if_true, if_false,
        Bool.false_eq_true, writeControlRegisterBitsByte_testBit _ _ _ _ hb]
    · cases h : mask.testBit b <;> simp [h]
    · cases h : mask.testBit b <;> simp [h]

/-- Witness for C9 at a concrete register file, mask and bit. -/
theorem setBlinkEnabled_inverts_witness :
    setBlinkEnabledState 1 0x80 true (fun _ => 0xff) =
      writeControlRegisterBitsState 1 0x80 (if true then 0 else 0x80)
        (fun _ => 0xff) ∧
    (setBlinkEnabledState 1 0x80 true (fun _ => 0xff) 1).testBit 7 =
      (if (0x80 : Nat).testBit 7 then !true
       else ((fun _ => (0xff : Nat)) 1).testBit 7) :=
  setBlinkEnabled_inverts 1 0x80 true (fun _ => 0xff) 7 (by decide)

/-- Claim C7: `setMovieFrameCount` uses count−1 encoding.  `mask` is the
movie-frames field mask from the header; the spec's field values 0 and 15
presuppose that the field covers at least the low four bits, which is the
hypothesis `hmask`.  For `count = 1` the masked field of the written byte is
0, for `count = 16` it is 15. -/
theorem setMovieFrameCount_count_minus_one (controlRegister mask : Nat)
    (regs : Nat → Nat) (hmask : 0x0f &&& mask = 0x0f) :
    setMovieFrameCountData 1 = 0 ∧
    setMovieFrameCountData 16 = 15 ∧
    (setMovieFrameCountState controlRegister mask 1 regs controlRegister) &&&
        mask = 0 ∧
    (setMovieFrameCountState controlRegister mask 16 regs controlRegister) &&&
        mask = 15 := by
  refine ⟨by decide, by decide, ?_, ?_⟩
  · unfold setMovieFrameCountState writeControlRegisterBitsState
    simp only [eq_self_iff_true, if_true]
    apply Nat.eq_of_testBit_eq
    intro b
    rw [Nat.testBit_and]
    by_cases hb : b < 8
    · rw [writeControlRegisterBitsByte_testBit _ _ _ _ hb]
      have hd : setMovieFrameCountData 1 = 0 := by decide
      rw [hd]
      cases h : mask.testBit b <;> simp [h]
    · rw [writeControlRegisterBitsByte_testBit_high _ _ _ _ (Nat.not_lt.mp hb)]
      simp
  · unfold setMovieFrameCountState writeControlRegisterBitsState
    simp only [eq_self_iff_true, if_true]
    apply Nat.eq_of_testBit_eq
    intro b
    rw [Nat.testBit_and]
    have hlow : ∀ c, c < 4 → mask.testBit c = true := by
      intro c hc
      have h15 : (0x0f : Nat).testBit c = true := by
        interval_cases c <;> decide
      have := congrArg (fun x => x.testBit c) hmask
      simpa [Nat.testBit_and, h15] using this
    by_cases hb : b < 8
    · rw [writeControlRegisterBitsByte_testBit _ _ _ _ hb]
      have hd : setMovieFrameCountData 16 = 15 := by decide
      rw [hd]
      by_cases hb4 : b < 4
      · rw [hlow b hb4]
        have h15b : (15 : Nat).testBit b = true := by
          interval_cases b <;> decide
        simp [h15b]
      · have h15b : (15 : Nat).testBit b = false := by
          have : (15 : Nat) < 2 ^ b := by
            calc (15 : Nat) < 2 ^ 4 := by norm_num
            _ ≤ 2 ^ b := Nat.pow_le_pow_right (by norm_num) (Nat.not_lt.mp hb4)
          exact Nat.testBit_lt_two_pow this
        rw [h15b]
        cases h : mask.testBit b <;> simp [h, h15b]
    · rw [writeControlRegisterBitsByte_testBit_high _ _ _ _ (Nat.not_lt.mp hb)]
      have h15b : (15 : Nat).testBit b = false := by
        have : (15 : Nat) < 2 ^ b := by
          calc (15 : Nat) < 2 ^ 4 := by norm_num
          _ ≤ 2 ^ b := Nat.pow_le_pow_right (by norm_num)
            (by omega)
        exact Nat.testBit_lt_two_pow this
      simp [h15b]

/-- Witness for C7 with the movie-frames field taken as the low six bits. -/
theorem setMovieFrameCount_count_minus_one_witness :
    setMovieFrameCountData 1 = 0 ∧
    setMovieFrameCountData 16 = 15 ∧
    (setMovieFrameCountState 0 0x3f 1 (fun _ => 0xff) 0) &&& 0x3f = 0 ∧
    (setMovieFrameCountState 0 0x3f 16 (fun _ => 0xff) 0) &&& 0x3f = 15 :=
  setMovieFrameCount_count_minus_one 0 0x3f (fun _ => 0xff) (by decide)

/- ### Frame delay scaling (C3) -/

/-- `AS1130::setFrameDelayMs`: the value written to the frame-delay
sub-field.  `delayMs` is a `uint16_t`, so the in-place multiplication by 10
wraps at 2^16 before the truncating division by 325 and the clamp at 15. -/
def setFrameDelayMsValue (delayMs : Nat) : Nat :=
  if ((delayMs % 65536) * 10 % 65536) / 325 > 0x000f then 0x000f
  else ((delayMs % 65536) * 10 % 65536) / 325

/-- The claim's formula for the frame-delay field:
`min(15, round(ms * 10 / 325))` with round-to-nearest (325 is odd, so no
ties arise). -/
def specFrameDelayTicks (delayMs : Nat) : Nat :=
  min 15 ((2 * (delayMs * 10) + 325) / (2 * 325))

/-- Claim C3, counterexample: at `delayMs = 6554` the code computes field
value 0 — the 16-bit product `65540` wraps to `4` — while the claim's
`min(15, round(ms * 10 / 325))` is 15. -/
theorem setFrameDelayMs_claim_counterexample :
    setFrameDelayMsValue 6554 = 0 ∧ specFrameDelayTicks 6554 = 15 ∧
      setFrameDelayMsValue 6554 ≠ specFrameDelayTicks 6554 := by
  refine ⟨by decide, ?_, ?_⟩ <;> decide

/-- Claim C3 (amended): for every milliseconds input, `setFrameDelayMs`
writes the field value `min(15, ((ms * 10) mod 2^16) / 325)` with truncating
integer division; in particular input 0 writes 0, input 325 writes 10, and
input 10000 writes the clamped value 15. -/
theorem setFrameDelayMs_scaling (ms : Nat) :
    setFrameDelayMsValue ms = min 15 ((ms % 65536) * 10 % 65536 / 325) ∧
    setFrameDelayMsValue 0 = 0 ∧
    setFrameDelayMsValue 325 = 10 ∧
    setFrameDelayMsValue 10000 = 15 := by
  refine ⟨?_, by decide, by decide, by decide⟩
  unfold setFrameDelayMsValue
  split <;> omega

/- ### LED fault status (C4, C10) -/

/-- `AS1130::LedStatus` result values. -/
inductive LedStatus
  | LedStatusOk
  | LedStatusOpen
  | LedStatusDisabled
deriving DecidableEq, Repr

/-- `AS1130::readFromMemory`, result part: the byte delivered by the bus
when one is available, the fallback `0x00` when the read transaction yields
no byte. -/
def readFromMemoryResult (received : Option Nat) : Nat :=
  match received with
  | some d => d % 256
  | none => 0x00

/-- `AS1130::getLedStatus`.  `openLedBase` stands for the header constant
`CR_OpenLedBase`; `regs` maps a control-register index to the byte a bus
read of it returns.  Next to the status we collect the control-register
indices actually read from the bus, in order. -/
def getLedStatus (openLedBase : Nat) (regs : Nat → Nat) (ledIndex : Nat) :
    LedStatus × List Nat :=
  if 0xba < ledIndex then (.LedStatusDisabled, [])
  else if 0x0a < ledIndex &&& 0x0f then (.LedStatusDisabled, [])
  else
    if regs (openLedBase + (ledIndex >>> 3)) &&& (1 <<< (ledIndex &&& 0x7)) = 0
    then (.LedStatusOpen, [openLedBase + (ledIndex >>> 3)])
    else (.LedStatusOk, [openLedBase + (ledIndex >>> 3)])

theorem and_one_shiftLeft_eq_zero (x t : Nat) :
    x &&& (1 <<< t) = 0 ↔ x.testBit t = false := by
  constructor
  · intro h
    have h2 := congrArg (fun y => y.testBit t) h
    simpa [Nat.testBit_and, testBit_one_shiftLeft] using h2
  · intro h
    apply Nat.eq_of_testBit_eq
    intro i
    rw [Nat.testBit_and, testBit_one_shiftLeft]
    by_cases hit : t = i
    · subst hit
      simp [h]
    · simp [hit]

/-- Claim C4: `getLedStatus` returns the `Disabled` sentinel and performs no
bus read whenever `ledIndex > 0xba` or `(ledIndex & 0x0f) > 0xa`; for every
other index it reads exactly the one fault-bitmap byte at control-register
index `CR_OpenLedBase + (ledIndex >> 3)` and tests its bit
`ledIndex & 0x7`. -/
theorem getLedStatus_spec (openLedBase : Nat) (regs : Nat → Nat)
    (ledIndex : Nat) :
    getLedStatus openLedBase regs ledIndex =
      if 0xba < ledIndex ∨ 0x0a < ledIndex &&& 0x0f then
        (LedStatus.LedStatusDisabled, [])
      else
        ((if (regs (openLedBase + (ledIndex >>> 3))).testBit (ledIndex &&& 0x7)
          then LedStatus.LedStatusOk else LedStatus.LedStatusOpen),
         [openLedBase + (ledIndex >>> 3)]) := by
  unfold getLedStatus
  by_cases h1 : 0xba < ledIndex
  · rw [if_pos h1, if_pos (Or.inl h1)]
  · rw [if_neg h1]
    by_cases h2 : 0x0a < ledIndex &&& 0x0f
    · rw [if_pos h2, if_pos (Or.inr h2)]
    · rw [if_neg h2,
        if_neg (by tauto : ¬(0xba < ledIndex ∨ 0x0a < ledIndex &&& 0x0f))]
      by_cases htb :
          (regs (openLedBase + (ledIndex >>> 3))).testBit (ledIndex &&& 0x7) =
            true
      · rw [if_neg (by rw [and_one_shiftLeft_eq_zero]; simp [htb]), if_pos htb]
      · have hf :
            (regs (openLedBase + (ledIndex >>> 3))).testBit
              (ledIndex &&& 0x7) = false := by
          simpa using htb
        rw [if_pos ((and_one_shiftLeft_eq_zero _ _).mpr hf), if_neg htb]

/-- Claim C10: when the bus read delivers no byte, `readFromMemory` falls
back to `0x00`, and consequently `getLedStatus` reports `Open` for every
valid (in-range) LED index — under read failure it can never return `Ok`. -/
theorem getLedStatus_read_failure_open (openLedBase ledIndex : Nat)
    (h1 : ledIndex ≤ 0xba) (h2 : ledIndex &&& 0x0f ≤ 0x0a) :
    readFromMemoryResult none = 0x00 ∧
    (getLedStatus openLedBase (fun _ => readFromMemoryResult none)
        ledIndex).1 = LedStatus.LedStatusOpen := by
  refine ⟨rfl, ?_⟩
  unfold getLedStatus readFromMemoryResult
  rw [if_neg (Nat.not_lt.mpr h1), if_neg (Nat.not_lt.mpr h2),
    if_pos (by simp)]

/-- Witness for C10 at a concrete valid LED index. -/
theorem getLedStatus_read_failure_open_witness :
    readFromMemoryResult none = 0x00 ∧
    (getLedStatus 0x20 (fun _ => readFromMemoryResult none) 0x15).1 =
      LedStatus.LedStatusOpen :=
  getLedStatus_read_failure_open 0x20 0x15 (by decide) (by decide)

/- ### Bus transaction traces (C6) -/

/-- One event on the two-wire bus at the granularity of the driver's memory
primitives: the bank-select write of the register-selection byte to control
address 0xfd, a data-byte write at an offset, or a data-byte read request at
an offset. -/
inductive BusEvent
  | bankSelect (registerSelection : Nat)
  | dataWrite (address data : Nat)
  | dataRead (address : Nat)
deriving DecidableEq, Repr

/-- One memory access of the driver: `AS1130::writeToMemory` or
`AS1130::readFromMemory`, each keyed by the memory bank
(`registerSelection`) it targets. -/
inductive MemOp
  | write (registerSelection address data : Nat)
  | read (registerSelection address : Nat)
deriving DecidableEq, Repr

/-- The bus events of one memory access: both `writeToMemory` and
`readFromMemory` first write the bank-select byte to control address 0xfd
and only then touch the data byte. -/
def memOpTrace : MemOp → List BusEvent
  | .write rs address data => [.bankSelect rs, .dataWrite address data]
  | .read rs address => [.bankSelect rs, .dataRead address]

/-- The bus trace of an operation that performs the given memory accesses in
order; every driver operation is such a sequence, since all data traffic
funnels through `writeToMemory` and `readFromMemory`. -/
def traceOf (ops : List MemOp) : List BusEvent := ops.flatMap memOpTrace

/-- Is the event a data-byte access (write or read), as opposed to a
bank-select write? -/
def BusEvent.isData : BusEvent → Bool
  | .bankSelect _ => false
  | .dataWrite _ _ => true
  | .dataRead _ => true

/-- The memory access a data event performs once bank `rs` is selected;
`none` for a bank-select event. -/
def eventMemOp (rs : Nat) : BusEvent → Option MemOp
  | .bankSelect _ => none
  | .dataWrite address data => some (.write rs address data)
  | .dataRead address => some (.read rs address)

/-- Claim C6: in the bus trace of any sequence of memory accesses — hence of
every driver operation — every data-byte write and every data-byte read is
immediately preceded by a bank-select write, and that bank-select names
exactly the memory bank targeted by the access being performed; no data byte
relies on a previously selected bank. -/
theorem traceOf_bank_select_discipline (ops : List MemOp) (i : Nat)
    (e : BusEvent) (he : (traceOf ops).get? i = some e)
    (hdata : e.isData = true) :
    ∃ rs op, i ≠ 0 ∧
      (traceOf ops).get? (i - 1) = some (.bankSelect rs) ∧
      eventMemOp rs e = some op ∧ op ∈ ops := by
  induction ops generalizing i with
  | nil => simp [traceOf] at he
  | cons op ops ih =>
    have hcons : traceOf (op :: ops) =
        memOpTrace op ++ traceOf ops := List.flatMap_cons _ _ _
    cases op with
    | write rs address data =>
      rw [hcons] at he
      simp only [memOpTrace, List.cons_append, List.nil_append] at he
      rcases i with _ | _ | n
      · simp only [List.get?_cons_zero, Option.some.injEq] at he
        subst he
        simp [BusEvent.isData] at hdata
      · simp only [List.get?_cons_succ, List.get?_cons_zero,
          Option.some.injEq] at he
        subst he
        exact ⟨rs, .write rs address data, Nat.one_ne_zero,
          by rw [hcons]; rfl, rfl, List.mem_cons_self _ _⟩
      · simp only [List.get?_cons_succ] at he
        obtain ⟨rs', op', hne, hprev, hop, hmem⟩ := ih (i := n) he
        obtain ⟨m, rfl⟩ := Nat.exists_eq_succ_of_ne_zero hne
        refine ⟨rs', op', Nat.succ_ne_zero _, ?_, hop,
          List.mem_cons_of_mem _ hmem⟩
        rw [hcons]
        simp only [memOpTrace, List.cons_append, List.nil_append]
        simpa using hprev
    | read rs address =>
      rw [hcons] at he
      simp only [memOpTrace, List.cons_append, List.nil_append] at he
      rcases i with _ | _ | n
      · simp only [List.get?_cons_zero, Option.some.injEq] at he
        subst he
        simp [BusEvent.isData] at hdata
      · simp only [List.get?_cons_succ, List.get?_cons_zero,
          Option.some.injEq] at he
        subst he
        exact ⟨rs, .read rs address, Nat.one_ne_zero,
          by rw [hcons]; rfl, rfl, List.mem_cons_self _ _⟩
      · simp only [List.get?_cons_succ] at he
        obtain ⟨rs', op', hne, hprev, hop, hmem⟩ := ih (i := n) he
        obtain ⟨m, rfl⟩ := Nat.exists_eq_succ_of_ne_zero hne
        refine ⟨rs', op', Nat.succ_ne_zero _, ?_, hop,
          List.mem_cons_of_mem _ hmem⟩
        rw [hcons]
        simp only [memOpTrace, List.cons_append, List.nil_append]
        simpa using hprev

/-- Witness for C6 on a concrete two-access operation. -/
theorem traceOf_bank_select_discipline_witness :
    ∃ rs op, (3 : Nat) ≠ 0 ∧
      (traceOf [MemOp.write 1 2 3, MemOp.read 4 5]).get? (3 - 1) =
        some (.bankSelect rs) ∧
      eventMemOp rs (BusEvent.dataRead 5) = some op ∧
      op ∈ [MemOp.write 1 2 3, MemOp.read 4 5] :=
  traceOf_bank_select_discipline [MemOp.write 1 2 3, MemOp.read 4 5] 3
    (BusEvent.dataRead 5) (by decide) (by decide)

/- ### On/off frame bit packing (C2, C5) -/

/-- Target byte offset of LED `index` inside the 24-byte frame buffer:
`segmentIndex * 2` with the byte-boundary correction (`++target`) when the
intra-segment position `segmentLed` is at least 8. -/
def ledTargetByte (index : Nat) : Nat :=
  (index / 10) * 2 + (if 8 ≤ index % 10 then 1 else 0)

/-- Target bit position of LED `index` inside its byte:
`segmentLed & 0x7`. -/
def ledTargetBit (index : Nat) : Nat := (index % 10) &&& 0x7

/-- `setOnOffFrameBit` (anonymous namespace of LRAS1130.cpp): OR the LED's
bit `1 << (segmentLed & 0x7)` into its target byte, leaving every other
byte of the frame buffer unchanged. -/
def setOnOffFrameBit (index : Nat) (data : Nat → Nat) : Nat → Nat :=
  fun j =>
    if j = ledTargetByte index then data j ||| (1 <<< ledTargetBit index)
    else data j

/-- `isMaskBitSet` (anonymous namespace of LRAS1130.cpp): bit of the 24×5
source mask at column `x`, row `y`; `data` maps byte offsets of the
caller's mask to byte values — 3 bytes per row, MSB first. -/
def isMaskBitSet (x y : Nat) (data : Nat → Nat) : Bool :=
  decide (data (y * 3 + (x >>> 3)) &&& (1 <<< (7 - (x &&& 7))) ≠ 0)

/-- Iteration order of the double loop in `setOnOffFrame24x5`: `y` outer
from 0 to 4, `x` inner from 0 to 23. -/
def frameCoords : List (Nat × Nat) :=
  (List.range 5).flatMap (fun y => (List.range 24).map (fun x => (x, y)))

/-- `AS1130::setOnOffFrame24x5`, buffer-construction part: start from the
zeroed 24-byte buffer with byte 1 set to `pwmSetIndex << 5` (a `uint8_t`
store), then for every coordinate whose mask bit is set, set the frame bit
of LED `y + 5*x`. -/
def setOnOffFrame24x5Data (data : Nat → Nat) (pwmSetIndex : Nat) :
    Nat → Nat :=
  frameCoords.foldl
    (fun finalData p =>
      if isMaskBitSet p.1 p.2 data then
        setOnOffFrameBit (p.2 + 5 * p.1) finalData
      else finalData)
    (fun j => if j = 1 then (pwmSetIndex <<< 5) % 256 else 0)

theorem setStep_testBit (data acc : Nat → Nat) (p : Nat × Nat) (j b : Nat) :
    ((if isMaskBitSet p.1 p.2 data then
        setOnOffFrameBit (p.2 + 5 * p.1) acc
      else acc) j).testBit b = true ↔
      (acc j).testBit b = true ∨
        (isMaskBitSet p.1 p.2 data = true ∧
          ledTargetByte (p.2 + 5 * p.1) = j ∧
          ledTargetBit (p.2 + 5 * p.1) = b) := by
  by_cases hm : isMaskBitSet p.1 p.2 data
  · rw [if_pos hm]
    show ((if j = ledTargetByte (p.2 + 5 * p.1) then
        acc j ||| (1 <<< ledTargetBit (p.2 + 5 * p.1))
      else acc j)).testBit b = true ↔ _
    by_cases hj : j = ledTargetByte (p.2 + 5 * p.1)
    · rw [if_pos hj, Nat.testBit_or, testBit_one_shiftLeft]
      simp [hm, hj.symm]
    · rw [if_neg hj]
      have hj2 : ¬ledTargetByte (p.2 + 5 * p.1) = j := fun h => hj h.symm
      simp [hm, hj2]
  · rw [if_neg hm]
    simp [hm]

theorem foldl_setBits_testBit (data : Nat → Nat) (L : List (Nat × Nat))
    (acc : Nat → Nat) (j b : Nat) :
    ((L.foldl
        (fun finalData p =>
          if isMaskBitSet p.1 p.2 data then
            setOnOffFrameBit (p.2 + 5 * p.1) finalData
          else finalData) acc) j).testBit b = true ↔
      (acc j).testBit b = true ∨
        ∃ p ∈ L, isMaskBitSet p.1 p.2 data = true ∧
          ledTargetByte (p.2 + 5 * p.1) = j ∧
          ledTargetBit (p.2 + 5 * p.1) = b := by
  induction L generalizing acc with
  | nil => simp
  | cons q L ih =>
    rw [List.foldl_cons, ih, setStep_testBit]
    constructor
    · rintro ((h | hq) | ⟨p, hp, hrest⟩)
      · exact Or.inl h
      · exact Or.inr ⟨q, List.mem_cons_self _ _, hq⟩
      · exact Or.inr ⟨p, List.mem_cons_of_mem _ hp, hrest⟩
    · rintro (h | ⟨p, hp, hrest⟩)
      · exact Or.inl (Or.inl h)
      · rcases List.mem_cons.mp hp with rfl | hp'
        · exact Or.inl (Or.inr hrest)
        · exact Or.inr ⟨p, hp', hrest⟩

theorem mem_frameCoords (p : Nat × Nat) :
    p ∈ frameCoords ↔ p.1 < 24 ∧ p.2 < 5 := by
  rcases p with ⟨x, y⟩
  simp only [frameCoords, List.mem_flatMap, List.mem_map, List.mem_range,
    Prod.mk.injEq]
  constructor
  · rintro ⟨y', hy', x', hx', rfl, rfl⟩
    exact ⟨hx', hy'⟩
  · rintro ⟨hx, hy⟩
    exact ⟨y, hy, x, hx, rfl, rfl⟩

/-- The sparse 24×5 source mask of the round-trip test: bits at (x=0,y=0),
(x=23,y=4) and the interior point (x=11,y=2); row-major, 3 bytes per row,
MSB first. -/
def sparseMask : Nat → Nat :=
  fun i =>
    if i = 0 then 0x80
    else if i = 7 then 0x10
    else if i = 14 then 0x01
    else 0

/-- Claim C2: the buffer `setOnOffFrame24x5` produces has bit `b` of byte
`j` set exactly when `j = 1` and `pwmSetIndex << 5` has bit `b`, or some
source-mask bit at `(x, y)` is set and LED `y + 5*x` maps to byte `j` and
bit `b` under the segment/byte-boundary rule; everything else is zero.  In
particular the sparse mask with bits at (0,0), (23,4) and (11,2) yields
exactly LED bits 0, 119 and 57: byte 0 = 0x01, byte 10 = 0x80,
byte 23 = 0x02, all other bytes zero. -/
theorem setOnOffFrame24x5_spec (data : Nat → Nat) (pwmSetIndex j b : Nat) :
    ((setOnOffFrame24x5Data data pwmSetIndex j).testBit b = true ↔
      (j = 1 ∧ ((pwmSetIndex <<< 5) % 256).testBit b = true) ∨
        ∃ x y, x < 24 ∧ y < 5 ∧ isMaskBitSet x y data = true ∧
          ledTargetByte (y + 5 * x) = j ∧ ledTargetBit (y + 5 * x) = b) ∧
    (List.range 24).map (setOnOffFrame24x5Data sparseMask 0) =
      [0x01, 0, 0, 0, 0, 0, 0, 0, 0, 0, 0x80, 0,
       0, 0, 0, 0, 0, 0, 0, 0, 0, 0, 0, 0x02] := by
  constructor
  · unfold setOnOffFrame24x5Data
    rw [foldl_setBits_testBit]
    constructor
    · rintro (h | ⟨p, hp, hset, hbyte, hbit⟩)
      · left
        by_cases hj : j = 1
        · subst hj
          rw [if_pos rfl] at h
          exact ⟨rfl, h⟩
        · rw [if_neg hj] at h
          simp at h
      · right
        rw [mem_frameCoords] at hp
        exact ⟨p.1, p.2, hp.1, hp.2, hset, hbyte, hbit⟩
    · rintro (⟨hj, hb⟩ | ⟨x, y, hx, hy, hset, hbyte, hbit⟩)
      · left
        subst hj
        rw [if_pos rfl]
        exact hb
      · right
        exact ⟨(x, y), (mem_frameCoords _).mpr ⟨hx, hy⟩, hset, hbyte, hbit⟩
  · decide

/-- `AS1130::setOnOffFrameAllOn`: the (offset, byte) pairs written to the
24-byte frame, in source order — segment 0 gets `0xff` and
`(pwmSetIndex << 5) | 0x03`, segments 1 to 11 each get `0xff` and `0x07`. -/
def setOnOffFrameAllOnWrites (pwmSetIndex : Nat) : List (Nat × Nat) :=
  [(0, 0xff), (1, ((pwmSetIndex <<< 5) ||| 0x03) % 256)] ++
    (List.range 11).flatMap
      (fun k => [((k + 1) * 2, 0xff), ((k + 1) * 2 + 1, 0x07)])

/-- The frame content `setOnOffFrameAllOn` leaves on the chip, byte by
byte. -/
def setOnOffFrameAllOnByte (pwmSetIndex i : Nat) : Nat :=
  if i = 0 then 0xff
  else if i = 1 then ((pwmSetIndex <<< 5) ||| 0x03) % 256
  else if i % 2 = 0 then 0xff
  else 0x07

/-- Claim C5: `setOnOffFrameAllOn` writes each of the 24 frame offsets
exactly once, in order: segment 0 as `0xff` then `(pwmSetIndex<<5)|0x03`,
every remaining segment as `0xff` then `0x07`; decoding the written bytes
shows every LED bit of the frame layout set. -/
theorem setOnOffFrameAllOn_spec (pwmSetIndex led s : Nat) (hled : led < 120)
    (hs0 : 0 < s) (hs : s < 12) :
    setOnOffFrameAllOnWrites pwmSetIndex =
      (List.range 24).map
        (fun i => (i, setOnOffFrameAllOnByte pwmSetIndex i)) ∧
    setOnOffFrameAllOnByte pwmSetIndex 0 = 0xff ∧
    setOnOffFrameAllOnByte pwmSetIndex 1 =
      ((pwmSetIndex <<< 5) ||| 0x03) % 256 ∧
    setOnOffFrameAllOnByte pwmSetIndex (2 * s) = 0xff ∧
    setOnOffFrameAllOnByte pwmSetIndex (2 * s + 1) = 0x07 ∧
    (setOnOffFrameAllOnByte pwmSetIndex (ledTargetByte led)).testBit
      (ledTargetBit led) = true := by
  have hbit : ledTargetBit led = (led % 10) % 8 := by
    unfold ledTargetBit
    rw [show (0x7 : Nat) = 2 ^ 3 - 1 by norm_num,
      Nat.and_pow_two_sub_one_eq_mod]
  refine ⟨?_, rfl, rfl, ?_, ?_, ?_⟩
  · rfl
  · unfold setOnOffFrameAllOnByte
    rw [if_neg (by omega), if_neg (by omega), if_pos (by omega)]
  · unfold setOnOffFrameAllOnByte
    rw [if_neg (by omega), if_neg (by omega), if_neg (by omega)]
  · by_cases h8 : 8 ≤ led % 10
    · have hbyte : ledTargetByte led = (led / 10) * 2 + 1 := by
        unfold ledTargetByte
        rw [if_pos h8]
      have hb2 : (led % 10) % 8 = 0 ∨ (led % 10) % 8 = 1 := by omega
      by_cases hq0 : led / 10 = 0
      · rw [hbyte, hq0, hbit]
        show (setOnOffFrameAllOnByte pwmSetIndex 1).testBit _ = true
        unfold setOnOffFrameAllOnByte
        rw [if_neg (by omega), if_pos rfl,
          testBit_mod256 _ _ (by omega), Nat.testBit_or]
        rcases hb2 with h | h <;> rw [h] <;>
          simp [show Nat.testBit 3 0 = true by decide,
            show Nat.testBit 3 1 = true by decide]
      · rw [hbyte, hbit]
        unfold setOnOffFrameAllOnByte
        rw [if_neg (by omega), if_neg (by omega), if_neg (by omega)]
        rcases hb2 with h | h <;> rw [h] <;> decide
    · have hbyte : ledTargetByte led = (led / 10) * 2 := by
        unfold ledTargetByte
        rw [if_neg h8, Nat.add_zero]
      rw [hbyte, hbit]
      have hff : setOnOffFrameAllOnByte pwmSetIndex ((led / 10) * 2) = 0xff := by
        unfold setOnOffFrameAllOnByte
        by_cases hq0 : led / 10 = 0
        · rw [hq0]
          norm_num
        · rw [if_neg (by omega), if_neg (by omega), if_pos (by omega)]
      rw [hff, show (0xff : Nat) = 2 ^ 8 - 1 by norm_num,
        Nat.testBit_two_pow_sub_one, decide_eq_true_eq]
      omega

/-- Witness for C5 at a concrete PWM set, LED index and segment. -/
theorem setOnOffFrameAllOn_spec_witness :
    setOnOffFrameAllOnWrites 2 =
      (List.range 24).map (fun i => (i, setOnOffFrameAllOnByte 2 i)) ∧
    setOnOffFrameAllOnByte 2 0 = 0xff ∧
    setOnOffFrameAllOnByte 2 1 = ((2 <<< 5) ||| 0x03) % 256 ∧
    setOnOffFrameAllOnByte 2 (2 * 3) = 0xff ∧
    setOnOffFrameAllOnByte 2 (2 * 3 + 1) = 0x07 ∧
    (setOnOffFrameAllOnByte 2 (ledTargetByte 57)).testBit
      (ledTargetBit 57) = true :=
  setOnOffFrameAllOn_spec 2 57 3 (by decide) (by decide) (by decide)

end AS1130
